import Mathlib

/-!
Verification of the ShopHub client-side storefront.

This file gives a shallow embedding of the storefront's pricing calculator,
cart aggregator, product filter/sort pipeline, keyword recommender and
local wishlist/theme stores, translated from the TypeScript sources
(`src/context/CartContext.tsx`, `src/pages/Cart.tsx`, `src/pages/Checkout.tsx`,
`src/pages/Products.tsx`, `src/pages/Home.tsx`, `src/state/WishlistContext.tsx`,
`src/context/ThemeContext.tsx`, `src/pages/PriceAlerts.tsx`), together with
theorems settling the specification's claims about them.

Modelling conventions:
* JavaScript numbers are modelled as exact rationals (`ℚ`); quantities and
  scores, which the code only ever adds integers to, as `ℤ`; timestamps as `ℕ`.
* JavaScript's falsy coercion `a || b` on numbers (`0`, `null` and `undefined`
  are falsy) is modelled explicitly by `jsOrQ` / `jsOrInt`.
* `Array.prototype.sort` is stable (ES2019); it is modelled by a stable
  insertion sort `sSort` over the comparator's total preorder.
* The remote table store is modelled as a list of rows, the authenticated
  session as an `Option String` user id, and `localStorage` as explicit
  optional stored values.
-/

/-- A catalog product, translated from `Product` in `src/types.ts`.
Only the fields the verified components read are kept. -/
structure Product where
  id : String
  category_id : String
  name : String
  description : Option String
  short_description : Option String
  price : ℚ
  discount_price : Option ℚ
  stock_quantity : ℤ
  rating : ℚ
  is_flash_sale : Bool
  created_at : ℤ
deriving DecidableEq, Repr

/-- JavaScript `a || b` for an optional number `a`: `undefined`, `null`
and `0` are falsy and select `b`. -/
def jsOrQ (a : Option ℚ) (b : ℚ) : ℚ :=
  match a with
  | some v => if v = 0 then b else v
  | none => b

/-- JavaScript `a || b` for an optional integer quantity. -/
def jsOrInt (a : Option ℤ) (b : ℤ) : ℤ :=
  match a with
  | some v => if v = 0 then b else v
  | none => b

/-- The effective price `p.discount_price || p.price` used by
`src/pages/Products.tsx` (filtering and sorting), `src/pages/Home.tsx`
(recommendation) and `src/pages/PriceAlerts.tsx`. -/
def effectivePrice (p : Product) : ℚ :=
  jsOrQ p.discount_price p.price

/-- The effective price the specification's words describe:
`discount_price` if set, else `price`. -/
def specEffectivePrice (p : Product) : ℚ :=
  p.discount_price.getD p.price

/-- A cart row as stored in the `cart_items` table. -/
structure CartRow where
  id : ℕ
  user_id : String
  product_id : String
  quantity : ℤ
  updated_at : ℕ
deriving DecidableEq, Repr

/-- A cart item held in the provider's local state: the row joined with its
product record (`product:products(...)` in `loadCart`), which the join can
fail to produce. -/
structure CartItem where
  id : ℕ
  user_id : String
  product_id : String
  quantity : ℤ
  product : Option Product
deriving DecidableEq, Repr

/-- Unit price of a cart item,
`item.product?.discount_price || item.product?.price || 0`
from `CartContext.tsx` / `Cart.tsx` / `Checkout.tsx`. -/
def itemPrice (item : CartItem) : ℚ :=
  jsOrQ (item.product.bind (fun p => p.discount_price))
    (jsOrQ (item.product.map (fun p => p.price)) 0)

/-- Cart subtotal, `items.reduce((sum, item) => sum + price * item.quantity, 0)`
from `CartContext.tsx` (exposed as `total`). -/
def cartSubtotal (items : List CartItem) : ℚ :=
  items.foldl (fun sum item => sum + itemPrice item * (item.quantity : ℚ)) 0

/-- Cart item count, `items.reduce((sum, item) => sum + item.quantity, 0)`
from `CartContext.tsx`. -/
def cartItemCount (items : List CartItem) : ℤ :=
  items.foldl (fun sum item => sum + item.quantity) 0

/-- The tax/shipping/total triple computed at checkout. -/
structure OrderCharges where
  tax : ℚ
  shipping : ℚ
  total : ℚ
deriving DecidableEq, Repr

/-- Order charges from the cart subtotal, translated from the identical
computations in `Cart.tsx` and `Checkout.tsx` (`handlePlaceOrder`):
`tax = total * 0.18; shipping = total > 500 ? 0 : 50;
finalTotal = total + tax + shipping`. -/
def orderCharges (total : ℚ) : OrderCharges :=
  let tax := total * (18 / 100)
  let shipping : ℚ := if 500 < total then 0 else 50
  ⟨tax, shipping, total + tax + shipping⟩

/-- Rounding to two decimal places, used by the specification's words
`round(subtotal * 0.18, 2)` (the code itself never rounds the tax). -/
def round2 (x : ℚ) : ℚ :=
  (round (x * 100) : ℚ) / 100

/-- The price-alert trigger from `src/pages/PriceAlerts.tsx`:
`currentPrice = product.discount_price || product.price;
alertTriggered = currentPrice <= alert.target_price`. -/
def priceAlertTriggered (product : Product) (target_price : ℚ) : Bool :=
  decide (effectivePrice product ≤ target_price)

/-- The provider's `loadCart` query: the user's `cart_items` rows joined with
their product records (`product:products(...)`), from `CartContext.tsx`. -/
def loadItems (store : List CartRow) (prods : List Product) (uid : String) : List CartItem :=
  (store.filter (fun r => r.user_id == uid)).map
    (fun r => ⟨r.id, r.user_id, r.product_id, r.quantity,
      prods.find? (fun p => p.id == r.product_id)⟩)

/-- Cart provider state: the remote `cart_items` table plus the local
`items` React state. -/
structure CartState where
  store : List CartRow
  items : List CartItem
deriving DecidableEq, Repr

/-- A row id not present in the store, standing for the id the backend
generates on insert. -/
def freshId (store : List CartRow) : ℕ :=
  (store.map (fun r => r.id)).foldr max 0 + 1

/-- `upsert(..., { onConflict: 'id' })`: update the row with the given id
when one exists, insert the row otherwise. -/
def upsertById (store : List CartRow) (row : CartRow) : List CartRow :=
  if store.any (fun r => r.id == row.id) then
    store.map (fun r => if r.id == row.id then row else r)
  else store ++ [row]

/-- `loadCart` from `CartContext.tsx`: returns without touching `items`
when there is no session, otherwise replaces `items` with the freshly
fetched rows. -/
def loadCartS (prods : List Product) (auth : Option String) (st : CartState) : CartState :=
  match auth with
  | none => st
  | some uid => ⟨st.store, loadItems st.store prods uid⟩

/-- `addToCart(product, quantity)` from `CartContext.tsx`: throws
`'Not authenticated'` without a session; otherwise looks the product up in
the local `items`, computes `newQty = (existing?.quantity || 0) + quantity`,
upserts one row keyed by the existing row's id (or a fresh id), and reloads
the cart. -/
def addToCart (prods : List Product) (auth : Option String) (st : CartState)
    (product : Product) (quantity : ℤ) (now : ℕ) : Except String CartState :=
  match auth with
  | none => .error "Not authenticated"
  | some uid =>
    let existing := st.items.find? (fun i => i.product_id == product.id)
    let newQty := jsOrInt (existing.map (fun e => e.quantity)) 0 + quantity
    let rowId := match existing with
      | some e => e.id
      | none => freshId st.store
    let store := upsertById st.store ⟨rowId, uid, product.id, newQty, now⟩
    .ok ⟨store, loadItems store prods uid⟩

/-- `removeFromCart(cartItemId)` from `CartContext.tsx`: deletes the row by
id and reloads the cart. -/
def removeFromCart (prods : List Product) (auth : Option String) (st : CartState)
    (cartItemId : ℕ) : CartState :=
  loadCartS prods auth ⟨st.store.filter (fun r => r.id != cartItemId), st.items⟩

/-- `updateQuantity(cartItemId, quantity)` from `CartContext.tsx`: delegates
to `removeFromCart` when `quantity <= 0`, otherwise updates the row's
quantity and timestamp and reloads. -/
def updateQuantity (prods : List Product) (auth : Option String) (st : CartState)
    (cartItemId : ℕ) (quantity : ℤ) (now : ℕ) : CartState :=
  if quantity ≤ 0 then removeFromCart prods auth st cartItemId
  else
    loadCartS prods auth
      ⟨st.store.map (fun r =>
        if r.id == cartItemId then ⟨r.id, r.user_id, r.product_id, quantity, now⟩ else r),
       st.items⟩

/-- `clearCart()` from `CartContext.tsx`: deletes all of the user's rows and
sets the local view to empty without reloading. -/
def clearCart (auth : Option String) (st : CartState) : Except String CartState :=
  match auth with
  | none => .error "Not authenticated"
  | some uid => .ok ⟨st.store.filter (fun r => r.user_id != uid), []⟩

/-- `String.prototype.toLowerCase`, modelled character-wise (the core
`String.toLower` is byte-position based and does not reduce in the kernel;
this list-based version is extensionally the same on the catalog's text). -/
def toLowerStr (s : String) : String :=
  String.mk (s.toList.map Char.toLower)

/-- `String.prototype.trim`: strip leading and trailing whitespace. -/
def trimStr (s : String) : String :=
  String.mk (((s.toList.dropWhile Char.isWhitespace).reverse.dropWhile
    Char.isWhitespace).reverse)

/-- `String.prototype.includes` over character lists: `needle` occurs as a
contiguous substring of `hay` (the empty needle always occurs). -/
def listIncludes : List Char → List Char → Bool
  | _, [] => true
  | [], _ :: _ => false
  | x :: xs, n :: ns => List.isPrefixOf (n :: ns) (x :: xs) || listIncludes xs (n :: ns)

/-- `hay.includes(needle)` on strings. -/
def strIncludes (hay needle : String) : Bool :=
  listIncludes hay.toList needle.toList

/-- Stable insertion for `sSort`: `le x y` reads "x may come no later than
y", so an element being inserted (which originates earlier in the input than
the already-sorted tail) is placed before every element it ties with. -/
def sInsert (le : α → α → Bool) (x : α) : List α → List α
  | [] => [x]
  | y :: ys => if le x y then x :: y :: ys else y :: sInsert le x ys

/-- Stable sort modelling ES2019 `Array.prototype.sort`: any stable sort
produces the same list for a total preorder, so insertion sort is a faithful
model of the engine's sort. -/
def sSort (le : α → α → Bool) : List α → List α
  | [] => []
  | x :: xs => sInsert le x (sSort le xs)





/-- The filter inputs of `src/pages/Products.tsx`: search text, selected
category (`''` = all), price range and sort order. -/
structure FilterInput where
  searchQuery : String
  selectedCategory : String
  priceMin : ℚ
  priceMax : ℚ
  sortBy : String
deriving DecidableEq, Repr

/-- The text predicate of `applyFilters`: the lower-cased (un-trimmed) query
occurs in the lower-cased name, description or short description;
missing optional fields never match (`p.description?.toLowerCase()`). -/
def textMatches (q : String) (p : Product) : Bool :=
  strIncludes (toLowerStr p.name) q ||
    (match p.description with
      | some d => strIncludes (toLowerStr d) q
      | none => false) ||
    (match p.short_description with
      | some d => strIncludes (toLowerStr d) q
      | none => false)

/-- `applyFilters` from `src/pages/Products.tsx`: text filter (active when
`searchQuery.trim()` is truthy, matching against `searchQuery.toLowerCase()`
without trimming), category equality filter (active when a category is
selected), inclusive effective-price range filter, then the selected stable
sort. -/
def applyFilters (allProducts : List Product) (f : FilterInput) : List Product :=
  let step1 :=
    if trimStr f.searchQuery = "" then allProducts
    else allProducts.filter (textMatches (toLowerStr f.searchQuery))
  let step2 :=
    if f.selectedCategory = "" then step1
    else step1.filter (fun p => p.category_id == f.selectedCategory)
  let step3 := step2.filter
    (fun p => decide (f.priceMin ≤ effectivePrice p) && decide (effectivePrice p ≤ f.priceMax))
  if f.sortBy = "price-low" then
    sSort (fun a b => decide (effectivePrice a ≤ effectivePrice b)) step3
  else if f.sortBy = "price-high" then
    sSort (fun a b => decide (effectivePrice b ≤ effectivePrice a)) step3
  else if f.sortBy = "rating" then
    sSort (fun a b => decide (b.rating ≤ a.rating)) step3
  else if f.sortBy = "newest" then
    sSort (fun a b => decide (b.created_at ≤ a.created_at)) step3
  else step3

/-- The conjunction of predicates `applyFilters` actually enforces. -/
def passesFilters (f : FilterInput) (p : Product) : Bool :=
  (trimStr f.searchQuery == "" || textMatches (toLowerStr f.searchQuery) p) &&
    (f.selectedCategory == "" || p.category_id == f.selectedCategory) &&
    (decide (f.priceMin ≤ effectivePrice p) && decide (effectivePrice p ≤ f.priceMax))

/-- The filter predicate as the claim words it: the trimmed, lower-cased
query must occur (empty query matches everything), the category must match,
and the effective price "discount_price if set, else price" must lie in
range. -/
def claimPasses (f : FilterInput) (p : Product) : Bool :=
  (toLowerStr (trimStr f.searchQuery) == "" ||
      textMatches (toLowerStr (trimStr f.searchQuery)) p) &&
    (f.selectedCategory == "" || p.category_id == f.selectedCategory) &&
    (decide (f.priceMin ≤ specEffectivePrice p) && decide (specEffectivePrice p ≤ f.priceMax))


/-- Splitting into whitespace-separated words (the accumulator carries the
current word reversed). Together with the length filter in `tokenize` this
models `q.split(/\s+/)`, whose empty fragments are discarded by the filter
anyway. -/
def wordsAux : List Char → List Char → List String
  | [], acc => if acc.isEmpty then [] else [String.mk acc.reverse]
  | c :: cs, acc =>
    if c.isWhitespace then
      if acc.isEmpty then wordsAux cs [] else String.mk acc.reverse :: wordsAux cs []
    else wordsAux cs (c :: acc)

/-- `q.split(/\s+/).filter((w) => w.length > 2)` from `buildAiReply`. -/
def tokenize (q : String) : List String :=
  (wordsAux q.toList []).filter (fun w => 2 < w.length)

/-- Digits-to-number, `parseInt` on a digit run. -/
def parseDigits (ds : List Char) : ℕ :=
  ds.foldl (fun n c => n * 10 + (c.toNat - 48)) 0

/-- One attempt of the regex `/under\s+(\d{2,5})/` at the head of the text:
the literal `under`, at least one whitespace character, then a run of at
least two digits of which the greedy quantifier captures the first five. -/
def matchUnderAt (cs : List Char) : Option ℕ :=
  if List.isPrefixOf "under".toList cs then
    let rest := cs.drop 5
    let ws := rest.takeWhile Char.isWhitespace
    if ws.isEmpty then none
    else
      let ds := (rest.drop ws.length).takeWhile Char.isDigit
      if 2 ≤ ds.length then some (parseDigits (ds.take 5)) else none
  else none

/-- `q.match(/under\s+(\d{2,5})/)` with `parseInt` on the first capture:
the leftmost position where the pattern matches wins. -/
def findUnder : List Char → Option ℕ
  | [] => none
  | c :: cs =>
    match matchUnderAt (c :: cs) with
    | some v => some v
    | none => findUnder cs

/-- The scoring haystack of `buildAiReply`:
`` `${p.name} ${p.description ?? ''} ${p.short_description ?? ''}`.toLowerCase() ``. -/
def haystack (p : Product) : String :=
  toLowerStr (p.name ++ " " ++ p.description.getD "" ++ " " ++ p.short_description.getD "")

/-- JavaScript truthiness of the optional parsed budget `maxPrice`. -/
def jsTruthyNat (a : Option ℕ) : Bool :=
  match a with
  | some v => v != 0
  | none => false

/-- One product's score, translated statement by statement from
`buildAiReply`: `+2` per query word contained in the haystack, `+1` for a
flash sale, `+1` for `rating >= 4`, then
`if (maxPrice && price <= maxPrice) score += 1` and
`if (maxPrice && price > maxPrice) score -= 1`. -/
def aiScore (maxPrice : Option ℕ) (words : List String) (p : Product) : ℤ :=
  let score := words.foldl
    (fun sc w => if strIncludes (haystack p) w then sc + 2 else sc) (0 : ℤ)
  let score := score + (if p.is_flash_sale then 1 else 0)
  let score := score + (if (4 : ℚ) ≤ p.rating then 1 else 0)
  let price := effectivePrice p
  let score := score +
    (if jsTruthyNat maxPrice && decide (price ≤ ((maxPrice.getD 0 : ℕ) : ℚ)) then 1 else 0)
  score -
    (if jsTruthyNat maxPrice && decide (((maxPrice.getD 0 : ℕ) : ℚ) < price) then 1 else 0)

/-- The `scored` list of `buildAiReply` before sorting: every product paired
with its score, keeping only strictly positive scores (in catalog order). -/
def buildAiScored (products : List Product) (query : String) : List (Product × ℤ) :=
  let q := toLowerStr query
  let maxPrice := findUnder q.toList
  let words := tokenize q
  (products.map (fun p => (p, aiScore maxPrice words p))).filter (fun s => decide (0 < s.2))

/-- `.sort((a, b) => b.score - a.score)`: stable descending sort by score. -/
def buildAiRanked (products : List Product) (query : String) : List (Product × ℤ) :=
  sSort (fun a b => decide (b.2 ≤ a.2)) (buildAiScored products query)

/-- `.slice(0, 3)`: the top three recommendations. -/
def aiTop (products : List Product) (query : String) : List (Product × ℤ) :=
  (buildAiRanked products query).take 3

/-- The observable outcome of `buildAiReply`: either the canned fallback
message (when `scored.length === 0`), or the picked products plus the flag
choosing the "within your budget" intro (`maxPrice ? ... : ...`). The
message strings themselves are presentational and not modelled. -/
inductive AiReply
  | fallback : AiReply
  | picks : List Product → Bool → AiReply
deriving DecidableEq, Repr

/-- `buildAiReply(query)` from `src/pages/Home.tsx`, reduced to its
observable outcome. -/
def buildAiReply (products : List Product) (query : String) : AiReply :=
  let scored := aiTop products query
  if scored.isEmpty then .fallback
  else .picks (scored.map (fun s => s.1))
    (jsTruthyNat (findUnder (toLowerStr query).toList))

/-- `toggleWishlist(productId)` from `src/state/WishlistContext.tsx`:
`prev.includes(productId) ? prev.filter((id) => id !== productId)
: [...prev, productId]`. -/
def toggleWishlist (productId : String) (prev : List String) : List String :=
  if prev.contains productId then prev.filter (fun id => id != productId)
  else prev ++ [productId]

/-- Modelled from the spec: the JSON string-escaping performed by the
external `JSON.stringify` on a string array (`localStorage` boundary of
`WishlistContext.tsx`; `JSON.stringify` itself is runtime code, not part of
this repository). Only the two escapes mandatory for strings free of control
characters are produced. -/
def escapeChar (c : Char) : List Char :=
  if c = '"' ∨ c = '\\' then ['\\', c] else [c]

/-- Modelled from the spec: `JSON.stringify` of one string. -/
def encodeJsonStr (s : String) : List Char :=
  '"' :: (s.toList.flatMap escapeChar ++ ['"'])

/-- Modelled from the spec: the element list of `JSON.stringify` of a string
array (everything after the opening bracket). -/
def encodeElems : List String → List Char
  | [] => [']']
  | s :: rest =>
    encodeJsonStr s ++ (if rest.isEmpty then [']'] else ',' :: encodeElems rest)

/-- Modelled from the spec: `JSON.stringify` of the wishlist id array, e.g.
`["p1","p2"]`. -/
def encodeWishlist (l : List String) : String :=
  String.mk ('[' :: encodeElems l)

/-- Modelled from the spec: `JSON.parse` of a JSON string body (after the
opening quote), accumulating the characters read so far in reverse.
Returns the decoded string and the rest of the input. -/
def parseStrBody : List Char → List Char → Option (String × List Char)
  | [], _ => none
  | '"' :: rest, acc => some (String.mk acc.reverse, rest)
  | '\\' :: '"' :: rest, acc => parseStrBody rest ('"' :: acc)
  | '\\' :: '\\' :: rest, acc => parseStrBody rest ('\\' :: acc)
  | '\\' :: _ :: _, _ => none
  | '\\' :: [], _ => none
  | c :: rest, acc => parseStrBody rest (c :: acc)

/-- Modelled from the spec: `JSON.parse` of the elements of a non-empty
string array, fuelled by the input length. -/
def parseElemsF : ℕ → List Char → Option (List String × List Char)
  | 0, _ => none
  | fuel + 1, cs =>
    match cs with
    | '"' :: rest =>
      match parseStrBody rest [] with
      | some (s, more) =>
        match more with
        | ',' :: rest2 => (parseElemsF fuel rest2).map (fun p => (s :: p.1, p.2))
        | ']' :: rest2 => some ([s], rest2)
        | _ => none
      | none => none
    | _ => none

/-- Modelled from the spec: `JSON.parse` of a wishlist id array. -/
def decodeWishlist (raw : String) : Option (List String) :=
  match raw.toList with
  | '[' :: cs =>
    if cs = [']'] then some []
    else
      match parseElemsF cs.length cs with
      | some (l, []) => some l
      | _ => none
  | _ => none

/-- The theme enum of `src/context/ThemeContext.tsx`. -/
inductive Theme
  | light : Theme
  | dark : Theme
deriving DecidableEq, Repr

/-- Theme initialization from `ThemeProvider`'s startup effect: a stored
value equal to `'light'` or `'dark'` is applied; anything else (including
nothing stored) falls back to
`window.matchMedia?.('(prefers-color-scheme: dark)').matches`, where a
missing `matchMedia` yields `undefined`, which is falsy. The function is
total: no stored value makes initialization fail. -/
def initTheme (stored : Option String) (matchMediaDark : Option Bool) : Theme :=
  if stored = some "light" ∨ stored = some "dark" then
    if stored = some "dark" then .dark else .light
  else if matchMediaDark = some true then .dark else .light

/-- The word component of the score as the claim words it: `+2` per query
word occurring as a substring of the haystack. -/
def wordScore (words : List String) (p : Product) : ℤ :=
  2 * ((words.filter (fun w => strIncludes (haystack p) w)).length : ℤ)

/-- The flash-sale and rating bonuses of the recommender score. -/
def baseBonus (p : Product) : ℤ :=
  (if p.is_flash_sale then 1 else 0) + (if (4 : ℚ) ≤ p.rating then 1 else 0)

/-- The budget adjustment as the claim words it: `+1` when a ceiling is set
and the effective price is at most the ceiling, `-1` when a ceiling is set
and the price exceeds it. -/
def claimCeilAdj (ceiling : Option ℕ) (price : ℚ) : ℤ :=
  match ceiling with
  | some c => if price ≤ (c : ℚ) then 1 else -1
  | none => 0

/-- The budget adjustment the code actually applies: a ceiling parsed as `0`
is falsy and has no effect. -/
def amendedCeilAdj (ceiling : Option ℕ) (price : ℚ) : ℤ :=
  match ceiling with
  | some c => if c = 0 then 0 else if price ≤ (c : ℚ) then 1 else -1
  | none => 0

/-- Ceiling extraction as the claim words it: the first match of
`under <integer>` — `under`, whitespace, then any non-empty digit run, all
of which is parsed. -/
def matchUnderClaimAt (cs : List Char) : Option ℕ :=
  if List.isPrefixOf "under".toList cs then
    let rest := cs.drop 5
    let ws := rest.takeWhile Char.isWhitespace
    if ws.isEmpty then none
    else
      let ds := (rest.drop ws.length).takeWhile Char.isDigit
      if 1 ≤ ds.length then some (parseDigits ds) else none
  else none

/-- Leftmost-match scan for `matchUnderClaimAt`. -/
def findUnderClaim : List Char → Option ℕ
  | [] => none
  | c :: cs =>
    match matchUnderClaimAt (c :: cs) with
    | some v => some v
    | none => findUnderClaim cs

/-- The ranked product list the claim describes: score with the claim's
ceiling extraction and presence-based budget adjustment, discard
non-positive scores, stable-sort descending, take the first three. -/
def claimTopList (products : List Product) (query : String) : List Product :=
  let q := toLowerStr query
  let ceiling := findUnderClaim q.toList
  let words := tokenize q
  ((sSort (fun a b => decide (b.2 ≤ a.2))
    ((products.map (fun p => (p, wordScore words p + baseBonus p +
        claimCeilAdj ceiling (effectivePrice p)))).filter
      (fun s => decide (0 < s.2)))).take 3).map (fun s => s.1)

/-- The ranked product list of the amended claim: as `claimTopList`, but the
ceiling is the first match of `under` + whitespace + two-to-five digits
(only the first five digits of a longer run are captured) and a ceiling
parsed as `0` is ignored. -/
def amendedTopList (products : List Product) (query : String) : List Product :=
  let q := toLowerStr query
  let ceiling := findUnder q.toList
  let words := tokenize q
  ((sSort (fun a b => decide (b.2 ≤ a.2))
    ((products.map (fun p => (p, wordScore words p + baseBonus p +
        amendedCeilAdj ceiling (effectivePrice p)))).filter
      (fun s => decide (0 < s.2)))).take 3).map (fun s => s.1)

/-! ### Concrete fixtures used by counterexamples and witnesses -/

/-- A product priced at 450.10 with no discount; its one-item cart has
subtotal 450.10, whose 18% tax has three decimal places. -/
def fixtureP45010 : Product :=
  ⟨"p450", "", "Widget", none, none, 4501 / 10, none, 5, 5, false, 0⟩

/-- A one-item cart holding `fixtureP45010`. -/
def fixtureCart45010 : List CartItem :=
  [⟨1, "u1", "p450", 1, some fixtureP45010⟩]

/-- A product named `Hoodie`, matched by the query `hoodie`. -/
def fixtureHoodie : Product :=
  ⟨"ph", "", "Hoodie", none, none, 899, none, 5, 5, false, 0⟩

/-- A filter input whose search query carries a leading space. -/
def fixtureSpaceQuery : FilterInput :=
  ⟨" hoodie", "", 0, 100000, "newest"⟩

/-- A flash-sale product whose haystack matches no query word. -/
def fixtureFlash : Product :=
  ⟨"pf", "", "flash widget", none, none, 10, none, 5, 3, true, 0⟩

/-- A product with `discount_price` present but equal to zero. -/
def fixtureZeroDiscount : Product :=
  ⟨"pz", "", "Zeroed", none, none, 100, some 0, 5, 5, false, 0⟩

/-- A cart item whose joined product record is missing. -/
def fixtureOrphanItem : CartItem :=
  ⟨7, "u1", "ghost", 5, none⟩

/-! ## Theorems -/
theorem sInsert_perm (le : α → α → Bool) (x : α) (l : List α) :
    (sInsert le x l).Perm (x :: l) := by
  induction l with
  | nil => exact List.Perm.refl _
  | cons y ys ih =>
    by_cases h : le x y = true
    · simp [sInsert, h]
    · simp only [sInsert, h]
      rw [if_neg]
      · exact (List.Perm.cons y ih).trans (List.Perm.swap x y ys)
      · simp [h]

theorem sSort_perm (le : α → α → Bool) (l : List α) : (sSort le l).Perm l := by
  induction l with
  | nil => exact List.Perm.refl _
  | cons x xs ih =>
    exact (sInsert_perm le x (sSort le xs)).trans (List.Perm.cons x ih)

theorem mem_sSort (le : α → α → Bool) (l : List α) (a : α) :
    a ∈ sSort le l ↔ a ∈ l :=
  (sSort_perm le l).mem_iff

theorem mem_applyFilters (allProducts : List Product) (f : FilterInput) (p : Product) :
    p ∈ applyFilters allProducts f ↔ p ∈ allProducts ∧ passesFilters f p = true := by
  unfold applyFilters
  have hstep :
      ∀ l : List Product,
        (p ∈ (if f.sortBy = "price-low" then
            sSort (fun a b => decide (effectivePrice a ≤ effectivePrice b)) l
          else if f.sortBy = "price-high" then
            sSort (fun a b => decide (effectivePrice b ≤ effectivePrice a)) l
          else if f.sortBy = "rating" then
            sSort (fun a b => decide (b.rating ≤ a.rating)) l
          else if f.sortBy = "newest" then
            sSort (fun a b => decide (b.created_at ≤ a.created_at)) l
          else l)) ↔ p ∈ l := by
    intro l
    split
    · exact mem_sSort _ l p
    · split
      · exact mem_sSort _ l p
      · split
        · exact mem_sSort _ l p
        · split
          · exact mem_sSort _ l p
          · exact Iff.rfl
  rw [hstep]
  simp only [List.mem_filter, passesFilters, Bool.and_eq_true, Bool.or_eq_true, beq_iff_eq]
  by_cases h1 : trimStr f.searchQuery = "" <;>
    by_cases h2 : f.selectedCategory = "" <;>
      (simp [h1, h2, List.mem_filter, and_assoc]; try tauto)

theorem jsOrQ_some_zero (b : ℚ) : jsOrQ (some b) 0 = b := by
  by_cases h : b = 0 <;> simp [jsOrQ, h]

theorem foldl_add_shift {R : Type} [CommRing R] {α : Type} (g : α → R) (a : R)
    (l : List α) :
    l.foldl (fun s x => s + g x) a = a + l.foldl (fun s x => s + g x) 0 := by
  induction l generalizing a with
  | nil => simp
  | cons x xs ih =>
    simp only [List.foldl]
    rw [ih (a + g x), ih (0 + g x)]
    ring

/-- Claim C1, counterexample: on the one-item cart with subtotal 450.10 the
computed tax is 81.018, not `round(450.10 * 0.18, 2) = 81.02` — the code
never rounds the tax to two decimal places. -/
theorem c1_tax_rounding_cex :
    (orderCharges (cartSubtotal fixtureCart45010)).tax ≠
      round2 (cartSubtotal fixtureCart45010 * (18 / 100)) := by
  norm_num [orderCharges, cartSubtotal, itemPrice, jsOrQ, fixtureCart45010,
    fixtureP45010, round2, round_eq]

/-- Claim C1 (amended): for every cart with subtotal S the computed charges
satisfy `tax = S * 0.18` exactly (with no rounding to two decimal places),
`shipping = 0` if `S > 500` and `50` otherwise, and
`total = S + tax + shipping`; in particular `S = 450` gives `(81, 50, 581)`
and `S = 600` gives `(108, 0, 708)`. -/
theorem c1_order_charges (items : List CartItem) :
    (orderCharges (cartSubtotal items)).tax = cartSubtotal items * (18 / 100) ∧
    (orderCharges (cartSubtotal items)).shipping =
      (if 500 < cartSubtotal items then (0 : ℚ) else 50) ∧
    (orderCharges (cartSubtotal items)).total =
      cartSubtotal items + (orderCharges (cartSubtotal items)).tax +
        (orderCharges (cartSubtotal items)).shipping ∧
    orderCharges 450 = ⟨81, 50, 581⟩ ∧
    orderCharges 600 = ⟨108, 0, 708⟩ :=
  ⟨rfl, rfl, rfl, by norm_num [orderCharges], by norm_num [orderCharges]⟩

/-- Claim C3: `updateQuantity` with a non-positive quantity is the very same
state transformation as `removeFromCart` — the same store (row deleted) and
the same reloaded local items. -/
theorem c3_updateQuantity_nonpos_removes (prods : List Product)
    (auth : Option String) (st : CartState) (cartItemId : ℕ) (q : ℤ) (now : ℕ)
    (hq : q ≤ 0) :
    updateQuantity prods auth st cartItemId q now =
      removeFromCart prods auth st cartItemId := by
  simp [updateQuantity, hq]

theorem c3_updateQuantity_nonpos_removes_witness :
    (0 : ℤ) ≤ 0 ∧
      updateQuantity [] (some "u1") ⟨[⟨1, "u1", "p1", 2, 0⟩], []⟩ 1 0 0 =
        removeFromCart [] (some "u1") ⟨[⟨1, "u1", "p1", 2, 0⟩], []⟩ 1 :=
  ⟨le_refl 0,
    c3_updateQuantity_nonpos_removes [] (some "u1") ⟨[⟨1, "u1", "p1", 2, 0⟩], []⟩
      1 0 0 (le_refl 0)⟩

/-- Claim C8, counterexample: a product with `discount_price` present but
equal to `0` has effective price `price` (here 100), not its set
`discount_price` — `discount_price || price` treats `0` as falsy. -/
theorem c8_effective_price_cex :
    fixtureZeroDiscount.discount_price = some 0 ∧
      effectivePrice fixtureZeroDiscount ≠ 0 ∧
      effectivePrice fixtureZeroDiscount = fixtureZeroDiscount.price :=
  ⟨rfl, by norm_num [effectivePrice, jsOrQ, fixtureZeroDiscount], by
    norm_num [effectivePrice, jsOrQ, fixtureZeroDiscount]⟩

/-- Claim C8 (amended): the effective price equals `discount_price` when it
is present and non-zero and `price` otherwise (absent or zero); the cart's
per-item unit price agrees with it whenever the product join is present; and
a price alert is triggered exactly when this effective price is at most the
target price. -/
theorem c8_effective_price (p : Product) (target : ℚ) :
    (p.discount_price = none → effectivePrice p = p.price) ∧
    (p.discount_price = some 0 → effectivePrice p = p.price) ∧
    (∀ d : ℚ, p.discount_price = some d → d ≠ 0 → effectivePrice p = d) ∧
    (∀ item : CartItem, item.product = some p → itemPrice item = effectivePrice p) ∧
    (priceAlertTriggered p target = true ↔ effectivePrice p ≤ target) := by
  refine ⟨?_, ?_, ?_, ?_, ?_⟩
  · intro h; simp [effectivePrice, jsOrQ, h]
  · intro h; simp [effectivePrice, jsOrQ, h]
  · intro d h hd; simp [effectivePrice, jsOrQ, h, hd]
  · intro item h
    simp [itemPrice, effectivePrice, h, jsOrQ_some_zero]
  · simp [priceAlertTriggered]

theorem c8_effective_price_witness :
    fixtureZeroDiscount.discount_price = some 0 ∧
      effectivePrice fixtureZeroDiscount = fixtureZeroDiscount.price :=
  ⟨rfl, (c8_effective_price fixtureZeroDiscount 0).2.1 rfl⟩

/-- Claim C9: theme initialization is a total function (it cannot throw),
and any stored value other than exactly `'light'` or `'dark'` — including a
corrupted value such as `'banana'` or nothing stored — falls back to the
host system's light/dark preference. -/
theorem c9_theme_fallback (stored : Option String) (sys : Option Bool)
    (h1 : stored ≠ some "light") (h2 : stored ≠ some "dark") :
    initTheme stored sys = (if sys = some true then Theme.dark else Theme.light) := by
  simp [initTheme, h1, h2]

theorem c9_theme_fallback_witness :
    (some "banana" ≠ some "light") ∧ (some "banana" ≠ some "dark") ∧
      initTheme (some "banana") (some true) = Theme.dark :=
  ⟨by decide, by decide, by
    simpa using c9_theme_fallback (some "banana") (some true) (by decide) (by decide)⟩

/-- Claim C10: a cart item whose joined product record is missing
contributes unit price 0 to the subtotal (the subtotal over the remaining
items is unchanged), while `itemCount` still includes its full quantity, so
the two aggregates disagree about which items exist. -/
theorem c10_missing_product_aggregates (item : CartItem) (rest : List CartItem)
    (h : item.product = none) :
    itemPrice item = 0 ∧
    cartSubtotal (item :: rest) = cartSubtotal rest ∧
    cartItemCount (item :: rest) = item.quantity + cartItemCount rest := by
  have hp : itemPrice item = 0 := by simp [itemPrice, h, jsOrQ]
  refine ⟨hp, ?_, ?_⟩
  · simp only [cartSubtotal, List.foldl]
    rw [foldl_add_shift (fun x => itemPrice x * (x.quantity : ℚ)), hp]
    simp
  · simp only [cartItemCount, List.foldl]
    rw [foldl_add_shift (fun x : CartItem => x.quantity)]
    simp [cartItemCount]

theorem c10_missing_product_aggregates_witness :
    fixtureOrphanItem.product = none ∧
      itemPrice fixtureOrphanItem = 0 ∧
      cartSubtotal [fixtureOrphanItem] = 0 ∧
      cartItemCount [fixtureOrphanItem] = 5 := by
  have h := c10_missing_product_aggregates fixtureOrphanItem [] rfl
  exact ⟨rfl, h.1, h.2.1.trans (by simp [cartSubtotal]), h.2.2.trans (by decide)⟩

/-- Claim C4, counterexample: for the query `' hoodie'` (leading space) the
claim's predicate (trimmed query) accepts the product `Hoodie`, but
`applyFilters` matches the *untrimmed* lower-cased query and filters the
product out — the query is trimmed only to decide whether the text filter
is active. -/
theorem c4_filter_claim_cex :
    ¬(fixtureHoodie ∈ applyFilters [fixtureHoodie] fixtureSpaceQuery ↔
        claimPasses fixtureSpaceQuery fixtureHoodie = true) := by
  decide

/-- Claim C4 (amended): a product appears in the filter output iff it is in
the catalog and satisfies all active predicates conjunctively, where the
text predicate uses the query lower-cased but *not* trimmed (trimming only
decides whether the filter is active, so a whitespace-only query matches
everything), and the effective price is `discount_price` when set and
non-zero, else `price`. -/
theorem c4_filter_membership (allProducts : List Product) (f : FilterInput)
    (p : Product) :
    p ∈ applyFilters allProducts f ↔
      p ∈ allProducts ∧
        (trimStr f.searchQuery ≠ "" → textMatches (toLowerStr f.searchQuery) p = true) ∧
        (f.selectedCategory ≠ "" → p.category_id = f.selectedCategory) ∧
        f.priceMin ≤ effectivePrice p ∧ effectivePrice p ≤ f.priceMax := by
  rw [mem_applyFilters]
  simp only [passesFilters, Bool.and_eq_true, Bool.or_eq_true, beq_iff_eq,
    decide_eq_true_eq]
  tauto

theorem c4_filter_membership_witness :
    fixtureHoodie ∈ applyFilters [fixtureHoodie] ⟨"hoodie", "", 0, 100000, "newest"⟩ :=
  (c4_filter_membership [fixtureHoodie] ⟨"hoodie", "", 0, 100000, "newest"⟩
      fixtureHoodie).mpr
    ⟨by decide, fun _ => by decide, fun h => absurd rfl h, by decide, by decide⟩

theorem parseStrBody_step (c : Char) (rest acc : List Char) (h1 : c ≠ '"')
    (h2 : c ≠ '\\') :
    parseStrBody (c :: rest) acc = parseStrBody rest (c :: acc) := by
  simp [parseStrBody, h1, h2]

theorem parseStrBody_encode (cs : List Char) (acc rest : List Char) :
    parseStrBody (cs.flatMap escapeChar ++ '"' :: rest) acc =
      some (String.mk (acc.reverse ++ cs), rest) := by
  induction cs generalizing acc with
  | nil => simp [parseStrBody]
  | cons c cs ih =>
    by_cases h : c = '"' ∨ c = '\\'
    · have hc : escapeChar c = ['\\', c] := by simp [escapeChar, h]
      rcases h with h | h <;> subst h
      · simp only [List.flatMap_cons, hc, List.cons_append, List.append_assoc,
          parseStrBody]
        simpa [List.flatMap] using ih ('"' :: acc)
      · simp only [List.flatMap_cons, hc, List.cons_append, List.append_assoc,
          parseStrBody]
        simpa [List.flatMap] using ih ('\\' :: acc)
    · have hc : escapeChar c = [c] := by simp [escapeChar, h]
      push_neg at h
      simp only [List.flatMap_cons, hc, List.cons_append, List.append_assoc]
      rw [List.nil_append, parseStrBody_step c _ _ h.1 h.2, ih]
      simp

theorem parseElemsF_encode (l : List String) (fuel : ℕ) (hl : l ≠ [])
    (hfuel : l.length ≤ fuel) :
    parseElemsF fuel (encodeElems l) = some (l, []) := by
  induction l generalizing fuel with
  | nil => exact absurd rfl hl
  | cons s rest ih =>
    obtain ⟨f, rfl⟩ : ∃ f, fuel = f + 1 :=
      ⟨fuel - 1, by simp at hfuel; omega⟩
    rw [encodeElems, encodeJsonStr]
    rcases rest with _ | ⟨s2, rest2⟩
    · rw [if_pos (show ([] : List String).isEmpty = true from rfl)]
      simp only [List.cons_append, List.append_assoc, List.singleton_append]
      rw [parseElemsF]
      simp only [parseStrBody_encode]
      simp
    · rw [if_neg (by simp)]
      simp only [List.cons_append, List.append_assoc, List.singleton_append]
      rw [parseElemsF]
      simp only [parseStrBody_encode, List.nil_append, List.reverse_nil]
      rw [ih f (by simp) (by simp at hfuel ⊢; omega)]
      simp

theorem length_le_encodeElems (l : List String) :
    l.length ≤ (encodeElems l).length := by
  induction l with
  | nil => simp [encodeElems]
  | cons s rest ih =>
    rw [encodeElems]
    rcases rest with _ | ⟨s2, rest2⟩
    · simp
    · rw [if_neg (by simp)]
      simp only [List.length_append, List.length_cons] at ih ⊢
      omega

theorem decodeWishlist_encodeWishlist (l : List String) :
    decodeWishlist (encodeWishlist l) = some l := by
  rcases l with _ | ⟨s, rest⟩
  · decide
  · have hne : encodeElems (s :: rest) ≠ [']'] := by
      rw [encodeElems, encodeJsonStr]
      intro hcontra
      have := congrArg List.length hcontra
      simp at this
    show (if encodeElems (s :: rest) = [']'] then some [] else
        match parseElemsF (encodeElems (s :: rest)).length (encodeElems (s :: rest)) with
        | some (l, []) => some l
        | _ => none) = some (s :: rest)
    rw [if_neg hne,
      parseElemsF_encode (s :: rest) _ (by simp) (length_le_encodeElems _)]

/-- Claim C7, counterexample: toggling `p1` twice on the wishlist
`[a, p1, b]` yields `[a, b, p1]` — the same set of ids, but not the
original array: removal filters the id out mid-list and the second toggle
re-appends it at the end. -/
theorem c7_toggle_cex :
    toggleWishlist "p1" (toggleWishlist "p1" ["a", "p1", "b"]) ≠
      ["a", "p1", "b"] := by
  decide

/-- Claim C7 (amended): `toggle(id)` removes the id if present and appends
it otherwise; toggling the same id twice returns a wishlist holding exactly
the same ids (a permutation of a duplicate-free original, and exactly the
original array when the id was absent); and the JSON round-trip through
local storage preserves the array after one toggle exactly. -/
theorem c7_toggle_roundtrip (l : List String) (id : String) :
    (l.contains id = false →
      toggleWishlist id (toggleWishlist id l) = l) ∧
    (l.Nodup → (toggleWishlist id (toggleWishlist id l)).Perm l) ∧
    decodeWishlist (encodeWishlist (toggleWishlist id l)) =
      some (toggleWishlist id l) := by
  have habsent : l.contains id = false →
      toggleWishlist id (toggleWishlist id l) = l := by
    intro h
    have hnotmem : id ∉ l := by simpa using h
    have h1 : toggleWishlist id l = l ++ [id] := by
      unfold toggleWishlist
      rw [h]
      rfl
    have h2c : (l ++ [id]).contains id = true := by simp
    have h2 : toggleWishlist id (l ++ [id]) =
        (l ++ [id]).filter (fun x => x != id) := by
      unfold toggleWishlist
      rw [h2c]
      rfl
    have hl : l.filter (fun x => x != id) = l :=
      List.filter_eq_self.mpr (fun a ha => by
        simp only [bne_iff_ne, ne_eq]
        exact fun hcontra => hnotmem (hcontra ▸ ha))
    rw [h1, h2, List.filter_append, hl]
    simp
  refine ⟨habsent, ?_, decodeWishlist_encodeWishlist _⟩
  intro hnodup
  by_cases hmem : l.contains id = true
  · have h1 : toggleWishlist id l = l.filter (fun x => x != id) := by
      unfold toggleWishlist
      rw [hmem]
      rfl
    have hfc : (l.filter (fun x => x != id)).contains id = false := by
      simp
    have h2 : toggleWishlist id (l.filter (fun x => x != id)) =
        l.filter (fun x => x != id) ++ [id] := by
      unfold toggleWishlist
      rw [hfc]
      rfl
    rw [h1, h2]
    refine (List.perm_append_singleton id _).trans ?_
    have herase : l.filter (fun x => x != id) = l.erase id := by
      rw [List.Nodup.erase_eq_filter hnodup]
    rw [herase]
    exact (List.perm_cons_erase (by simpa using hmem)).symm
  · rw [habsent (by simpa using hmem)]

theorem c7_toggle_roundtrip_witness :
    (["a"] : List String).contains "p1" = false ∧
      (["a"] : List String).Nodup ∧
      toggleWishlist "p1" (toggleWishlist "p1" ["a"]) = ["a"] ∧
      (toggleWishlist "p1" (toggleWishlist "p1" ["a"])).Perm ["a"] ∧
      decodeWishlist (encodeWishlist (toggleWishlist "p1" ["a"])) =
        some (toggleWishlist "p1" ["a"]) :=
  ⟨by decide, by decide,
    (c7_toggle_roundtrip ["a"] "p1").1 (by decide),
    (c7_toggle_roundtrip ["a"] "p1").2.1 (by decide),
    (c7_toggle_roundtrip ["a"] "p1").2.2⟩

theorem le_foldr_max (x : ℕ) (xs : List ℕ) (h : x ∈ xs) : x ≤ xs.foldr max 0 := by
  induction xs with
  | nil => cases h
  | cons y ys ih =>
    rcases List.mem_cons.mp h with rfl | h'
    · exact le_max_left _ _
    · exact le_trans (ih h') (le_max_right _ _)

theorem freshId_not_mem (store : List CartRow) (r : CartRow) (h : r ∈ store) :
    r.id ≠ freshId store := by
  have := le_foldr_max r.id (store.map (fun r => r.id))
    (List.mem_map_of_mem _ h)
  unfold freshId
  omega

/-- Claim C2: starting from a synced cart with no row for the product, two
sequential `addToCart` calls for the same product with quantities `q1` and
`q2` (each reloading the cart, as `addToCart` itself does) leave exactly one
row for the (user, product) pair, with quantity `q1 + q2` — the merge takes
`newQuantity = existingQuantity + quantity` when a row exists and
`newQuantity = quantity` otherwise, upserting a single row. -/
theorem c2_addToCart_merges (prods : List Product) (uid : String)
    (s0 : List CartRow) (p : Product) (q1 q2 : ℤ) (t1 t2 : ℕ)
    (hno : ∀ r ∈ s0, r.user_id = uid → r.product_id ≠ p.id) :
    ∃ st1 st2 : CartState,
      addToCart prods (some uid) ⟨s0, loadItems s0 prods uid⟩ p q1 t1 = .ok st1 ∧
      addToCart prods (some uid) st1 p q2 t2 = .ok st2 ∧
      st2.store.filter (fun r => r.user_id == uid && r.product_id == p.id) =
        [⟨freshId s0, uid, p.id, q1 + q2, t2⟩] ∧
      st2.items = loadItems st2.store prods uid := by
  have hfind1 : (loadItems s0 prods uid).find?
      (fun i => i.product_id == p.id) = none := by
    rw [List.find?_eq_none]
    intro x hx
    simp only [loadItems, List.mem_map, List.mem_filter] at hx
    obtain ⟨r, ⟨hr, hru⟩, rfl⟩ := hx
    simpa using hno r hr (by simpa using hru)
  have hany1 : (s0.any (fun r => r.id == freshId s0)) = false := by
    simp only [List.any_eq_false]
    intro r hr
    simpa using freshId_not_mem s0 r hr
  have hstep1 : addToCart prods (some uid) ⟨s0, loadItems s0 prods uid⟩ p q1 t1 =
      .ok ⟨s0 ++ [⟨freshId s0, uid, p.id, q1, t1⟩],
        loadItems (s0 ++ [⟨freshId s0, uid, p.id, q1, t1⟩]) prods uid⟩ := by
    simp [addToCart, hfind1, jsOrInt, upsertById, hany1]
  have hload : loadItems (s0 ++ [⟨freshId s0, uid, p.id, q1, t1⟩]) prods uid =
      loadItems s0 prods uid ++
        [⟨freshId s0, uid, p.id, q1, prods.find? (fun pr => pr.id == p.id)⟩] := by
    simp [loadItems, List.filter_append]
  have hfind2 : (loadItems (s0 ++ [⟨freshId s0, uid, p.id, q1, t1⟩]) prods
      uid).find? (fun i => i.product_id == p.id) =
      some ⟨freshId s0, uid, p.id, q1, prods.find? (fun pr => pr.id == p.id)⟩ := by
    rw [hload, List.find?_append, hfind1]
    simp [List.find?]
  have hany2 : ((s0 ++ [(⟨freshId s0, uid, p.id, q1, t1⟩ : CartRow)]).any
      (fun r => r.id == freshId s0)) = true := by
    simp
  have hq : jsOrInt (some q1) 0 + q2 = q1 + q2 := by
    by_cases h : q1 = 0 <;> simp [jsOrInt, h]
  have hmap : (s0 ++ [(⟨freshId s0, uid, p.id, q1, t1⟩ : CartRow)]).map
      (fun r => if r.id == freshId s0 then
        (⟨freshId s0, uid, p.id, q1 + q2, t2⟩ : CartRow) else r) =
      s0 ++ [⟨freshId s0, uid, p.id, q1 + q2, t2⟩] := by
    rw [List.map_append]
    congr 1
    · conv_rhs => rw [show s0 = s0.map id from (List.map_id s0).symm]
      exact List.map_congr_left (fun r hr =>
        if_neg (by simpa using freshId_not_mem s0 r hr))
    · simp
  have hstep2 : addToCart prods (some uid)
      ⟨s0 ++ [⟨freshId s0, uid, p.id, q1, t1⟩],
        loadItems (s0 ++ [⟨freshId s0, uid, p.id, q1, t1⟩]) prods uid⟩ p q2 t2 =
      .ok ⟨s0 ++ [⟨freshId s0, uid, p.id, q1 + q2, t2⟩],
        loadItems (s0 ++ [⟨freshId s0, uid, p.id, q1 + q2, t2⟩]) prods uid⟩ := by
    simp only [addToCart, hfind2, Option.map_some', hq, upsertById, hany2,
      if_true, hmap]
  have hfilter : (s0 ++ [(⟨freshId s0, uid, p.id, q1 + q2, t2⟩ : CartRow)]).filter
      (fun r => r.user_id == uid && r.product_id == p.id) =
      [⟨freshId s0, uid, p.id, q1 + q2, t2⟩] := by
    rw [List.filter_append]
    have h1 : s0.filter (fun r => r.user_id == uid && r.product_id == p.id) = [] := by
      rw [List.filter_eq_nil_iff]
      intro r hr
      by_cases hu : r.user_id = uid
      · simpa [hu] using hno r hr hu
      · simp [hu]
    rw [h1]
    simp
  exact ⟨_, _, hstep1, hstep2, hfilter, rfl⟩

theorem c2_addToCart_merges_witness :
    (∀ r ∈ ([] : List CartRow), r.user_id = "u1" → r.product_id ≠ fixtureHoodie.id) ∧
    ∃ st1 st2 : CartState,
      addToCart [] (some "u1") ⟨[], loadItems [] [] "u1"⟩ fixtureHoodie 2 0 =
        .ok st1 ∧
      addToCart [] (some "u1") st1 fixtureHoodie 3 1 = .ok st2 ∧
      st2.store.filter
          (fun r => r.user_id == "u1" && r.product_id == fixtureHoodie.id) =
        [⟨freshId [], "u1", fixtureHoodie.id, 2 + 3, 1⟩] ∧
      st2.items = loadItems st2.store [] "u1" :=
  ⟨by simp, c2_addToCart_merges [] "u1" [] fixtureHoodie 2 3 0 1 (by simp)⟩

theorem filter_sInsertDesc (s : ℤ) (x : Product × ℤ) (l : List (Product × ℤ)) :
    (sInsert (fun a b => decide (b.2 ≤ a.2)) x l).filter (fun a => a.2 == s) =
      if x.2 == s then x :: l.filter (fun a => a.2 == s)
      else l.filter (fun a => a.2 == s) := by
  induction l with
  | nil =>
    by_cases hx : (x.2 == s) = true <;> simp [sInsert, List.filter, hx]
  | cons y ys ih =>
    by_cases hle : decide (y.2 ≤ x.2) = true
    · rw [show sInsert (fun a b => decide (b.2 ≤ a.2)) x (y :: ys) = x :: y :: ys
        from by simp [sInsert, hle]]
      rw [List.filter_cons]
    · have hlt : x.2 < y.2 := by simpa using hle
      rw [show sInsert (fun a b => decide (b.2 ≤ a.2)) x (y :: ys) =
          y :: sInsert (fun a b => decide (b.2 ≤ a.2)) x ys
        from by simp [sInsert, hle]]
      rw [List.filter_cons, ih]
      by_cases hx : (x.2 == s) = true
      · have hy : (y.2 == s) = false := by
          have hxs : x.2 = s := by simpa using hx
          simp only [beq_eq_false_iff_ne, ne_eq]
          omega
        simp [hx, hy, List.filter_cons]
      · simp [hx, List.filter_cons]

theorem filter_sSortDesc (s : ℤ) (l : List (Product × ℤ)) :
    (sSort (fun a b => decide (b.2 ≤ a.2)) l).filter (fun a => a.2 == s) =
      l.filter (fun a => a.2 == s) := by
  induction l with
  | nil => rfl
  | cons x xs ih =>
    rw [sSort, filter_sInsertDesc, ih, List.filter_cons]

/-- Claim C6: recommendation is a pure function, so a fixed (catalog, query)
pair always yields the same ranked list and the same fallback decision; the
output is the first three entries of the stable descending ranking, which is
a permutation of the positively-scored list, and for every score the
equal-score entries of the ranking appear exactly in their original catalog
order (`buildAiScored` is in catalog order). -/
theorem c6_recommend_deterministic (products : List Product) (query : String) :
    buildAiReply products query = buildAiReply products query ∧
    aiTop products query = (buildAiRanked products query).take 3 ∧
    (buildAiRanked products query).Perm (buildAiScored products query) ∧
    ∀ s : ℤ, (buildAiRanked products query).filter (fun a => a.2 == s) =
      (buildAiScored products query).filter (fun a => a.2 == s) :=
  ⟨rfl, rfl, sSort_perm _ _, fun s => filter_sSortDesc s _⟩

theorem aiScore_eq (maxPrice : Option ℕ) (words : List String) (p : Product) :
    aiScore maxPrice words p =
      wordScore words p + baseBonus p + amendedCeilAdj maxPrice (effectivePrice p) := by
  have hfold : ∀ (ws : List String) (a : ℤ),
      ws.foldl (fun sc w => if strIncludes (haystack p) w then sc + 2 else sc) a =
        a + 2 * ((ws.filter (fun w => strIncludes (haystack p) w)).length : ℤ) := by
    intro ws
    induction ws with
    | nil => simp
    | cons w ws ih =>
      intro a
      by_cases hw : strIncludes (haystack p) w = true
      · simp only [List.foldl_cons, hw, if_true, List.filter_cons, ih]
        simp only [hw, if_true, List.length_cons]
        push_cast
        ring
      · simp only [List.foldl_cons, hw, if_false, List.filter_cons, ih]
        simp [hw]
  unfold aiScore wordScore baseBonus amendedCeilAdj
  rw [hfold]
  rcases maxPrice with _ | m
  · simp [jsTruthyNat]
    ring
  · by_cases hm : m = 0
    · simp [jsTruthyNat, hm]
      ring
    · by_cases hp : effectivePrice p ≤ (m : ℚ)
      · simp only [jsTruthyNat, Option.getD_some, hm, hp]
        simp [hm, hp, not_lt.mpr hp]
        ring
      · simp only [jsTruthyNat, Option.getD_some, hm, hp]
        simp [hm, hp, lt_of_not_le hp]
        ring

/-- Claim C5 (amended): the recommender lower-cases the query, extracts an
optional budget ceiling as the first match of `under` + whitespace + two to
five digits (a longer digit run contributes only its first five digits, and
a ceiling parsed as `0` is ignored), tokenizes into words of length > 2, and
scores +2 per matching word, +1 for flash sale, +1 for rating ≥ 4, ±1 for
the ceiling test on the effective price; non-positive scores are discarded,
the rest stable-sorted descending, the first 3 returned, and the canned
fallback is produced exactly when that list is empty. -/
theorem c5_recommend_amended (products : List Product) (query : String) :
    (aiTop products query).map (fun s => s.1) = amendedTopList products query ∧
    (buildAiReply products query = AiReply.fallback ↔
      amendedTopList products query = []) := by
  have hmap : products.map (fun p =>
      (p, aiScore (findUnder (toLowerStr query).toList)
        (tokenize (toLowerStr query)) p)) =
      products.map (fun p =>
        (p, wordScore (tokenize (toLowerStr query)) p + baseBonus p +
          amendedCeilAdj (findUnder (toLowerStr query).toList)
            (effectivePrice p))) :=
    List.map_congr_left (fun p _ => by rw [aiScore_eq])
  have htop : (aiTop products query).map (fun s => s.1) =
      amendedTopList products query := by
    simp only [aiTop, buildAiRanked, buildAiScored, amendedTopList]
    rw [hmap]
  refine ⟨htop, ?_⟩
  by_cases he : (aiTop products query).isEmpty = true
  · have hnil : aiTop products query = [] := by simpa [List.isEmpty_iff] using he
    rw [← htop, hnil]
    simp [buildAiReply, hnil]
  · have hnil : aiTop products query ≠ [] := by
      simpa [List.isEmpty_iff] using he
    rw [← htop]
    constructor
    · intro hcontra
      exact absurd hcontra (by simp [buildAiReply, List.isEmpty_iff, hnil])
    · intro hcontra
      exact absurd (List.map_eq_nil_iff.mp hcontra) hnil

/-- Claim C5, counterexample: on the catalog `[flash widget]` (price 10,
flash sale, rating 3) and the query `under 5`, the claim's scoring (ceiling
5 from the pattern `under <integer>`, −1 for exceeding it) discards the
product and predicts the fallback message, but the code's regex
`/under\s+(\d{2,5})/` requires at least two digits, parses no ceiling, and
returns the product. -/
theorem c5_recommend_claim_cex :
    claimTopList [fixtureFlash] "under 5" = [] ∧
      buildAiReply [fixtureFlash] "under 5" = .picks [fixtureFlash] false :=
  ⟨by decide, by decide⟩
